import Mathlib

/-!
Shallow embedding of kernel/sched/cpufreq_schedalessa.c (the "schedalessa"
cpufreq governor) and proofs about its documented behavior.

Modelling conventions:
* C `unsigned int` arithmetic that can wrap is taken modulo `U32 = 2^32`;
  `unsigned long` (64-bit) products are taken modulo `U64 = 2^64`.
* `u64` timestamps and `s64` deltas: the C code computes `delta_ns` as the
  `s64` reinterpretation of a `u64` subtraction.  All kernel timestamps stay
  far below `2^63`, where that reinterpretation coincides with subtraction in
  `Int`; we therefore model times as `Int` and the delta as plain `Int`
  subtraction.
* External kernel collaborators that this file's functions call but which are
  not part of this repository (`map_util_freq`, `em_pd_get_higher_freq`,
  `cpufreq_driver_resolve_freq`, `arch_scale_freq_invariant`,
  `tick_nohz_get_idle_calls`, `tick_nohz_get_idle_calls_cpu`, the value of an
  uninitialized local read, and `cpufreq_this_cpu_can_update`) are parameters
  gathered in `Ctx`; theorems hold for every instantiation.
* Per-CPU state (`per_cpu(algov_cpu, j)`) is modelled as a map
  `Nat → AlgovCpu`; a policy's member set (`policy->cpus`) as a `List Nat`.
-/

def U32 : Nat := 4294967296

def U64 : Nat := 18446744073709551616

def UINT_MAX : Nat := U32 - 1

/-- The `flags` bitmask passed to the update hooks; only the
`SCHED_CPUFREQ_IOWAIT` and `SCHED_CPUFREQ_DL` bits are inspected. -/
structure Flags where
  iowait : Bool
  dl : Bool
deriving DecidableEq

/-- `struct algov_tunables` (the fields the modelled code reads). -/
structure Tunables where
  up_rate_limit_us : Nat
  down_rate_limit_us : Nat
  iowait_boost_enable : Bool
deriving DecidableEq

/-- The fields of `struct cpufreq_policy` that the governor reads. -/
structure Policy where
  cur : Nat
  min : Nat
  cpuinfo_max_freq : Nat
  fast_switch_enabled : Bool
  cpus : List Nat
deriving DecidableEq

/-- `struct algov_policy` (the purely data fields; locks, work items and the
tunables pointer are modelled by the explicit state passing). -/
structure AlgovPolicy where
  last_freq_update_time : Int
  min_rate_limit_ns : Int
  up_rate_delay_ns : Int
  down_rate_delay_ns : Int
  next_freq : Nat
  cached_raw_freq : Nat
  work_in_progress : Bool
  need_freq_update : Bool
deriving DecidableEq

/-- `struct algov_cpu`. -/
structure AlgovCpu where
  iowait_boost_pending : Bool
  iowait_boost : Nat
  iowait_boost_max : Nat
  last_update : Int
  util : Nat
  max : Nat
  flags : Flags
  cpu : Nat
  saved_idle_calls : Nat
  previous_util : Nat
deriving DecidableEq

/-- Ambient inputs: external kernel functions and readings that the governor
consumes but that live outside this repository. -/
structure Ctx where
  map_util_freq : Nat → Nat → Nat → Nat
  em_pd_get_higher_freq : Nat → Nat → Nat
  resolve_freq : Nat → Nat
  freq_invariant : Bool
  tick_nsec : Int
  stale_ns : Int
  use_pelt : Bool
  idle_calls : Nat
  idle_calls_cpu : Nat → Nat
  garbage_util : Nat
  can_update : Bool

/-- `algov_should_update_freq` (lines 142-173). -/
def algov_should_update_freq (C : Ctx) (p : Policy) (s : AlgovPolicy)
    (time : Int) : Bool :=
  if p.fast_switch_enabled ∧ ¬ C.can_update then false
  else if s.need_freq_update then true
  else decide (time - s.last_freq_update_time ≥ s.min_rate_limit_ns)

/-- `algov_up_down_rate_limit` (lines 175-191). -/
def algov_up_down_rate_limit (s : AlgovPolicy) (time : Int)
    (next_freq : Nat) : Bool :=
  let delta_ns : Int := time - s.last_freq_update_time
  (decide (next_freq > s.next_freq) && decide (delta_ns < s.up_rate_delay_ns)) ||
  (decide (next_freq < s.next_freq) && decide (delta_ns < s.down_rate_delay_ns))

/-- `algov_update_next_freq` (lines 193-212).  Returns whether the change was
accepted together with the new policy state.  The average on the
`sg_policy->next_freq > next_freq` branch is `unsigned int` arithmetic, hence
the sum is reduced modulo `U32` before the shift. -/
def algov_update_next_freq (s : AlgovPolicy) (time : Int)
    (next_freq : Nat) : Bool × AlgovPolicy :=
  if algov_up_down_rate_limit s time next_freq then
    (false, { s with cached_raw_freq := 0 })
  else if s.next_freq = next_freq then
    (false, s)
  else
    let nf := if s.next_freq > next_freq
              then ((s.next_freq + next_freq) % U32) / 2
              else next_freq
    (true, { s with next_freq := nf, last_freq_update_time := time })

/-- The raw frequency computed by `get_next_freq` (lines 309-334) before the
cache check: reference frequency selection, `map_util_freq`,
`em_pd_get_higher_freq` with the busy cost margin `1024/2`, then
`freq = (freq + (freq >> 2)) * util / max` (`unsigned int` sum, `unsigned
long` product and division, truncated back to `unsigned int`). -/
def rawFreq (C : Ctx) (p : Policy) (util mx : Nat) (busy : Bool) : Nat :=
  let freq := if C.freq_invariant then p.cpuinfo_max_freq else p.cur
  let cost_margin := if busy then 1024 / 2 else 0
  let freq := C.map_util_freq util freq mx
  let freq := C.em_pd_get_higher_freq freq cost_margin
  ((freq + freq / 4) % U32 * util % U64 / mx) % U32

/-- `get_next_freq` (lines 309-342): the stability short-circuit returns the
previously chosen frequency when the raw frequency matches the cache and no
forced refresh is pending; otherwise the cache is refilled and the raw value
is resolved against the driver's frequency table. -/
def get_next_freq (C : Ctx) (p : Policy) (s : AlgovPolicy) (util mx : Nat)
    (busy : Bool) : Nat × AlgovPolicy :=
  let freq := rawFreq C p util mx busy
  if freq = s.cached_raw_freq ∧ s.need_freq_update = false then
    (s.next_freq, s)
  else
    (C.resolve_freq freq,
     { s with need_freq_update := false, cached_raw_freq := freq })

/-- `algov_cpu_is_busy` (lines 243-250): reads the ambient idle-calls counter,
reports whether it is unchanged since the last observation, and saves it. -/
def algov_cpu_is_busy (C : Ctx) (c : AlgovCpu) : Bool × AlgovCpu :=
  (decide (C.idle_calls = c.saved_idle_calls),
   { c with saved_idle_calls := C.idle_calls })

/-- `algov_cpu_is_busy_update` (lines 251-274): stores the per-CPU idle-calls
reading, decrements it (64-bit wrap-around) when the new utilization does not
exceed the previous one, and records the utilization. -/
def algov_cpu_is_busy_update (C : Ctx) (c : AlgovCpu) (util : Nat) : AlgovCpu :=
  let ic := C.idle_calls_cpu c.cpu
  let ic := if util ≤ c.previous_util then (ic + U64 - 1) % U64 else ic
  { c with saved_idle_calls := ic, previous_util := util }

/-- `algov_set_iowait_boost` (lines 376-407).  `enable` is
`tunables->iowait_boost_enable`, `pmin` is `policy->min`; the IOWAIT flag is
read from the stored `sg_cpu->flags` field, exactly as in the source. -/
def algov_set_iowait_boost (C : Ctx) (enable : Bool) (pmin : Nat)
    (c : AlgovCpu) (time : Int) : AlgovCpu :=
  if enable = false then c
  else
    let c :=
      if c.iowait_boost ≠ 0 ∧ time - c.last_update > C.tick_nsec then
        { c with iowait_boost := 0, iowait_boost_pending := false }
      else c
    if c.flags.iowait then
      if c.iowait_boost_pending then c
      else
        let c := { c with iowait_boost_pending := true }
        if c.iowait_boost ≠ 0 then
          { c with
            iowait_boost := min (2 * c.iowait_boost % U32) c.iowait_boost_max }
        else
          { c with iowait_boost := pmin }
    else c

/-- The tail of `algov_iowait_boost` (lines 427-433): override the
`(util, max)` pair when the boosted pair represents a higher relative load,
per the cross-multiplied comparison `util * boost_max < max * boost_util`
(`unsigned long` products, hence taken modulo `U64`). -/
def algov_iowait_boost_apply (c : AlgovCpu) (util mx : Nat) :
    AlgovCpu × Nat × Nat :=
  if util * c.iowait_boost_max % U64 < mx * c.iowait_boost % U64 then
    (c, c.iowait_boost, c.iowait_boost_max)
  else (c, util, mx)

/-- `algov_iowait_boost` (lines 409-434): consumes a pending boost or halves a
non-pending one (returning early with the boost cleared when the halved
value falls below `policy->min`), then applies the surviving boost to the
`(util, max)` pair. -/
def algov_iowait_boost (pmin : Nat) (c : AlgovCpu) (util mx : Nat) :
    AlgovCpu × Nat × Nat :=
  if c.iowait_boost = 0 then (c, util, mx)
  else if c.iowait_boost_pending then
    algov_iowait_boost_apply { c with iowait_boost_pending := false } util mx
  else if c.iowait_boost / 2 < pmin then
    ({ c with iowait_boost := 0 }, util, mx)
  else
    algov_iowait_boost_apply { c with iowait_boost := c.iowait_boost / 2 }
      util mx

/-- `algov_deferred_update` / `algov_fast_switch` merged commit step
(lines 214-240).  `cpufreq_driver_fast_switch` is stubbed to `0` in this
backport (line 38), so the fast path never updates `policy->cur`; the
deferred path marks `work_in_progress` and queues the irq work when the
change is accepted and no work was pending.  Returns
(new policy state, accepted, irq work queued). -/
def algov_commit (p : Policy) (s : AlgovPolicy) (time : Int)
    (next_freq : Nat) : AlgovPolicy × Bool × Bool :=
  let r := algov_update_next_freq s time next_freq
  if r.1 = false then (r.2, false, false)
  else if p.fast_switch_enabled then (r.2, true, false)
  else if r.2.work_in_progress then (r.2, true, false)
  else ({ r.2 with work_in_progress := true }, true, true)


/-- Result of one invocation of `algov_update_single`: the new per-CPU and
policy state, the candidate frequency handed to the apply path (`none` when
the function returned before reaching it), whether `algov_update_next_freq`
accepted it, and whether deferred irq work was queued. -/
structure SingleResult where
  cpu : AlgovCpu
  pol : AlgovPolicy
  candidate : Option Nat
  accepted : Bool
  queued : Bool
deriving DecidableEq

/-- The per-CPU state after the io-wait bookkeeping and timestamp write of
`algov_update_single` (lines 446-447). -/
def singleCpuStamped (C : Ctx) (p : Policy) (enable : Bool) (cpu : AlgovCpu)
    (time : Int) : AlgovCpu :=
  { algov_set_iowait_boost C enable p.min cpu time with last_update := time }

/-- The busy classification of `algov_update_single` (line 459):
`use_pelt() && algov_cpu_is_busy(sg_cpu)`. -/
def singleBusy (C : Ctx) (p : Policy) (enable : Bool) (cpu : AlgovCpu)
    (time : Int) : Bool :=
  C.use_pelt && (algov_cpu_is_busy C (singleCpuStamped C p enable cpu time)).1

/-- The per-CPU state of the triggering CPU in `algov_update_single` right
after the busy classification (lines 446-460): io-wait bookkeeping,
timestamp, the `algov_cpu_is_busy` side effect, and the
`algov_cpu_is_busy_update(sg_cpu, util)` call at line 460, which reads the
still-uninitialized local `util`, modelled by `C.garbage_util`. -/
def singleCpuAfterClassify (C : Ctx) (p : Policy) (enable : Bool)
    (cpu : AlgovCpu) (time : Int) : AlgovCpu :=
  algov_cpu_is_busy_update C
    (algov_cpu_is_busy C (singleCpuStamped C p enable cpu time)).2
    C.garbage_util

/-- The boosted `(util, max)` pair `algov_update_single` hands to
`get_next_freq` on the non-DL path (line 466). -/
def singleBoostedPair (C : Ctx) (p : Policy) (enable : Bool)
    (cpu : AlgovCpu) (time : Int) (utilIn maxIn : Nat) : Nat × Nat :=
  (algov_iowait_boost p.min (singleCpuAfterClassify C p enable cpu time)
    utilIn maxIn).2

/-- `algov_update_single` (lines 436-493), assembled from the named pieces
above (which follow the source statement by statement).  `utilIn`/`maxIn`
are the values `algov_get_util` (external scheduler state) would produce
for this CPU at this time.  The busy classification happens before the
DL-flag branch, as in the source. -/
def algov_update_single (C : Ctx) (p : Policy) (enable : Bool)
    (pol : AlgovPolicy) (cpu : AlgovCpu) (time : Int) (flags : Flags)
    (utilIn maxIn : Nat) : SingleResult :=
  let cc := singleCpuStamped C p enable cpu time
  if pol.work_in_progress then
    ⟨cc, pol, none, false, false⟩
  else if algov_should_update_freq C p pol time = false then
    ⟨cc, pol, none, false, false⟩
  else
    let busy := singleBusy C p enable cpu time
    let cpu3 := singleCpuAfterClassify C p enable cpu time
    if flags.dl then
      let next_f := p.cpuinfo_max_freq
      let c := algov_commit p pol time next_f
      ⟨cpu3, c.1, some next_f, c.2.1, c.2.2⟩
    else
      let b := algov_iowait_boost p.min cpu3 utilIn maxIn
      let pr := singleBoostedPair C p enable cpu time utilIn maxIn
      let g := get_next_freq C p pol pr.1 pr.2 busy
      let np :=
        if busy = true ∧ g.1 < g.2.next_freq ∧ g.2.next_freq ≠ UINT_MAX then
          (g.2.next_freq, { g.2 with cached_raw_freq := 0 })
        else (g.1, g.2)
      let c := algov_commit p np.2 time np.1
      ⟨b.1, c.1, some np.1, c.2.1, c.2.2⟩

/-- Pointwise update of the per-CPU state map. -/
def updMap (st : Nat → AlgovCpu) (i : Nat) (c : AlgovCpu) :
    Nat → AlgovCpu :=
  fun j => if j = i then c else st j

/-- Accumulator of the member scan in `algov_next_freq_shared`. -/
structure SharedAgg where
  st : Nat → AlgovCpu
  util : Nat
  mx : Nat
  busy : Bool
  dl : Bool
  sg_cpu_util : Nat

/-- One iteration of the `for_each_cpu(j, policy->cpus)` loop of
`algov_next_freq_shared` (lines 504-536): stale members have their boost
cleared and are skipped; a DL member short-circuits the scan; otherwise the
member's busy check runs (overwriting its saved idle-calls counter), the
cross-multiplied comparison (`unsigned long` products, taken modulo `U64`)
updates the running pair, and the member's io-wait boost is applied to the
running pair. -/
def agg_step (C : Ctx) (pmin : Nat) (time : Int) (p_idx : Nat)
    (acc : SharedAgg) (j : Nat) : SharedAgg :=
  let jc := acc.st j
  if time - jc.last_update > C.stale_ns then
    let jc := { jc with iowait_boost := 0, iowait_boost_pending := false }
    { acc with st := updMap acc.st j jc }
  else if jc.flags.dl then
    { acc with dl := true }
  else
    let j_util := jc.util
    let scu := if j = p_idx then j_util else acc.sg_cpu_util
    let j_max := jc.max
    let r := algov_cpu_is_busy C jc
    let jc := r.2
    let pair := if j_util * acc.mx % U64 > j_max * acc.util % U64
                then (j_util, j_max) else (acc.util, acc.mx)
    let b := algov_iowait_boost pmin jc pair.1 pair.2
    { st := updMap acc.st j b.1, util := b.2.1, mx := b.2.2,
      busy := acc.busy || r.1, dl := false, sg_cpu_util := scu }

/-- The member scan; once the DL short-circuit fires the remaining members
are not visited (the C code returns from inside the loop). -/
def agg_loop (C : Ctx) (pmin : Nat) (time : Int) (p_idx : Nat) :
    List Nat → SharedAgg → SharedAgg
  | [], acc => acc
  | j :: rest, acc =>
    let acc := agg_step C pmin time p_idx acc j
    if acc.dl then acc else agg_loop C pmin time p_idx rest acc

/-- Result of `algov_next_freq_shared`: the returned frequency, the final
aggregated `(util, max)` pair and busy flag handed to `get_next_freq` (for
the DL short-circuit these are the values at the moment of the early
return), the per-CPU map, the policy state, and whether the DL
short-circuit fired. -/
structure SharedNext where
  freq : Nat
  util : Nat
  mx : Nat
  busy : Bool
  st : Nat → AlgovCpu
  pol : AlgovPolicy
  dl : Bool

/-- `algov_next_freq_shared` (lines 495-547); `p_idx` is the CPU whose update
triggered the evaluation (`sg_cpu`).  After the scan, only that CPU's busy
state is updated via `algov_cpu_is_busy_update`, with the utilization the
scan recorded for it. -/
def algov_next_freq_shared (C : Ctx) (p : Policy) (pol : AlgovPolicy)
    (st : Nat → AlgovCpu) (p_idx : Nat) (time : Int) : SharedNext :=
  let acc := agg_loop C p.min time p_idx p.cpus
    { st := st, util := 0, mx := 1, busy := false, dl := false,
      sg_cpu_util := 0 }
  if acc.dl then
    { freq := p.cpuinfo_max_freq, util := acc.util, mx := acc.mx,
      busy := acc.busy, st := acc.st, pol := pol, dl := true }
  else
    let pc := algov_cpu_is_busy_update C (acc.st p_idx) acc.sg_cpu_util
    let st := updMap acc.st p_idx pc
    let g := get_next_freq C p pol acc.util acc.mx acc.busy
    { freq := g.1, util := acc.util, mx := acc.mx, busy := acc.busy,
      st := st, pol := g.2, dl := false }

/-- Result of one invocation of `algov_update_shared`. -/
structure SharedResult where
  st : Nat → AlgovCpu
  pol : AlgovPolicy
  candidate : Option Nat
  accepted : Bool
  queued : Bool

/-- `algov_update_shared` (lines 549-581). -/
def algov_update_shared (C : Ctx) (p : Policy) (enable : Bool)
    (pol : AlgovPolicy) (st : Nat → AlgovCpu) (p_idx : Nat) (time : Int)
    (utilIn maxIn : Nat) (flags : Flags) : SharedResult :=
  let pc := st p_idx
  let pc := { pc with util := utilIn, max := maxIn, flags := flags }
  let pc := algov_set_iowait_boost C enable p.min pc time
  let pc := { pc with last_update := time }
  let st := updMap st p_idx pc
  if algov_should_update_freq C p pol time then
    if flags.dl then
      let c := algov_commit p pol time p.cpuinfo_max_freq
      ⟨st, c.1, some p.cpuinfo_max_freq, c.2.1, c.2.2⟩
    else
      let r := algov_next_freq_shared C p pol st p_idx time
      let c := algov_commit p r.pol time r.freq
      ⟨r.st, c.1, some r.freq, c.2.1, c.2.2⟩
  else
    ⟨st, pol, none, false, false⟩

/-- `up_rate_limit_us_store` (lines 665-686).  The body begins with an
unconditional `return count;` ("Don't let userspace change this"), so the
parsing and delay-recomputation code below it (lines 675-685) is
unreachable; the function returns the full input count and leaves the
tunables and every attached policy untouched. -/
def up_rate_limit_us_store (tunables : Tunables)
    (policies : List AlgovPolicy) (_buf : String) (count : Nat) :
    Nat × Tunables × List AlgovPolicy :=
  (count, tunables, policies)

/-- `down_rate_limit_us_store` (lines 688-709); same unconditional early
`return count;` as `up_rate_limit_us_store`. -/
def down_rate_limit_us_store (tunables : Tunables)
    (policies : List AlgovPolicy) (_buf : String) (count : Nat) :
    Nat × Tunables × List AlgovPolicy :=
  (count, tunables, policies)

/-- A sequence of rate-limiter evaluations: fold `algov_update_next_freq`
over a list of (time, candidate) pairs. -/
def runRL (s : AlgovPolicy) : List (Int × Nat) → AlgovPolicy
  | [] => s
  | e :: rest => runRL (algov_update_next_freq s e.1 e.2).2 rest

/-- One evaluate-and-commit cycle of the frequency selector against the rate
limiter: compute the next frequency from fixed inputs, then hand it to
`algov_update_next_freq`.  Returns the new state and whether a frequency
change was accepted (i.e. an actuation request produced). -/
def evalCommitStep (C : Ctx) (p : Policy) (util mx : Nat) (busy : Bool)
    (time : Int) (s : AlgovPolicy) : AlgovPolicy × Bool :=
  let g := get_next_freq C p s util mx busy
  let r := algov_update_next_freq g.2 time g.1
  (r.2, r.1)

/-- Iterated evaluate-and-commit cycles with identical inputs; the Bool
records whether any cycle produced an actuation request. -/
def iterEvalCommit (C : Ctx) (p : Policy) (util mx : Nat) (busy : Bool)
    (time : Int) : Nat → AlgovPolicy → AlgovPolicy × Bool
  | 0, s => (s, false)
  | n + 1, s =>
    let r := evalCommitStep C p util mx busy time s
    let rest := iterEvalCommit C p util mx busy time n r.1
    (rest.1, r.2 || rest.2)

/-- The cross-multiplied maximum-ratio selection step of the member scan,
extracted as a pure function on `(utilization, capacity)` pairs: the
candidate replaces the accumulator exactly when `j_util * max > j_max *
util` (so on an exact ratio tie the earlier pair is kept).  As in the
source, the products are `unsigned long` and therefore taken modulo
`U64`. -/
def pairStep (acc q : Nat × Nat) : Nat × Nat :=
  if q.1 * acc.2 % U64 > q.2 * acc.1 % U64 then q else acc

/-- The `(utilization, capacity)` pairs of the non-stale members of `l`, in
scan order. -/
def aggPairs (C : Ctx) (st : Nat → AlgovCpu) (time : Int) (l : List Nat) :
    List (Nat × Nat) :=
  (l.filter (fun j => decide (time - (st j).last_update ≤ C.stale_ns))).map
    (fun j => ((st j).util, (st j).max))

/-- Logical OR of the busy checks of the non-stale members of `l`. -/
def aggBusySpec (C : Ctx) (st : Nat → AlgovCpu) (time : Int)
    (l : List Nat) : Bool :=
  (l.filter (fun j => decide (time - (st j).last_update ≤ C.stale_ns))).any
    (fun j => decide (C.idle_calls = (st j).saved_idle_calls))

/-- The pair the cross-multiplied scan selects, starting from the loop's
initial `util = 0`, `max = 1`. -/
def aggSel (C : Ctx) (st : Nat → AlgovCpu) (time : Int) (l : List Nat) :
    Nat × Nat :=
  (aggPairs C st time l).foldl pairStep (0, 1)

/- Concrete fixtures used by the counterexamples and witnesses. -/

/-- A concrete instantiation of the external collaborators. -/
def ctx0 : Ctx :=
  { map_util_freq := fun u f m => f * u / m,
    em_pd_get_higher_freq := fun f _ => f,
    resolve_freq := fun f => f,
    freq_invariant := true,
    tick_nsec := 1000000,
    stale_ns := 100000,
    use_pelt := true,
    idle_calls := 7,
    idle_calls_cpu := fun _ => 9,
    garbage_util := 0,
    can_update := true }

/-- A single-CPU policy fixture. -/
def p1 : Policy :=
  { cur := 500, min := 200, cpuinfo_max_freq := 1000,
    fast_switch_enabled := false, cpus := [0] }

/-- A two-CPU (shared) policy fixture. -/
def p2 : Policy :=
  { cur := 500, min := 200, cpuinfo_max_freq := 1000,
    fast_switch_enabled := false, cpus := [0, 1] }

/-- Rate-limiter state with both delays zero, used to exercise
`algov_update_next_freq` with the rejection checks passing. -/
def cexPolicyState : AlgovPolicy :=
  { last_freq_update_time := 0, min_rate_limit_ns := 0,
    up_rate_delay_ns := 0, down_rate_delay_ns := 0, next_freq := 100,
    cached_raw_freq := 0, work_in_progress := false,
    need_freq_update := false }

/-- Policy state with the default-derived delays (500us up, 20000us down,
min 500us), last change at time 0, current next_freq 500. -/
def polGate : AlgovPolicy :=
  { last_freq_update_time := 0, min_rate_limit_ns := 500000,
    up_rate_delay_ns := 500000, down_rate_delay_ns := 20000000,
    next_freq := 500, cached_raw_freq := 0, work_in_progress := false,
    need_freq_update := false }

/-- `polGate` with a forced refresh pending, so the evaluation gate passes
even inside the min-rate-limit window. -/
def polGateForced : AlgovPolicy :=
  { polGate with need_freq_update := true }

/-- Rate-limiter state with symmetric 1000ns delays for the C4 witness. -/
def rlW : AlgovPolicy :=
  { last_freq_update_time := 0, min_rate_limit_ns := 1000,
    up_rate_delay_ns := 1000, down_rate_delay_ns := 1000, next_freq := 100,
    cached_raw_freq := 0, work_in_progress := false,
    need_freq_update := false }

/-- A quiescent CPU fixture (no boost, idle counter in sync with `ctx0`). -/
def cpu0 : AlgovCpu :=
  { iowait_boost_pending := false, iowait_boost := 0,
    iowait_boost_max := 1000, last_update := 0, util := 0, max := 1024,
    flags := { iowait := false, dl := false }, cpu := 0,
    saved_idle_calls := 7, previous_util := 0 }

/-- Shared-policy member 0: utilization 600/1024, no boost, idle counter 0. -/
def cpuA : AlgovCpu :=
  { iowait_boost_pending := false, iowait_boost := 0,
    iowait_boost_max := 1024, last_update := 0, util := 600, max := 1024,
    flags := { iowait := false, dl := false }, cpu := 0,
    saved_idle_calls := 0, previous_util := 0 }

/-- Shared-policy member 1: utilization 100/1024, no boost, idle counter 5. -/
def cpuB : AlgovCpu :=
  { iowait_boost_pending := false, iowait_boost := 0,
    iowait_boost_max := 1024, last_update := 0, util := 100, max := 1024,
    flags := { iowait := false, dl := false }, cpu := 1,
    saved_idle_calls := 5, previous_util := 0 }

/-- Per-CPU map for the two-member domain {cpuA, cpuB}. -/
def st0 : Nat → AlgovCpu := fun j => if j = 1 then cpuB else cpuA

/-- Shared-policy member 1 with a large pending io-wait boost (1000 against
boost-max 1024) and low utilization 100/1024. -/
def cpuD : AlgovCpu :=
  { iowait_boost_pending := true, iowait_boost := 1000,
    iowait_boost_max := 1024, last_update := 0, util := 100, max := 1024,
    flags := { iowait := false, dl := false }, cpu := 1,
    saved_idle_calls := 5, previous_util := 0 }

/-- Per-CPU map for the domain {cpuA, cpuD}: member 0 has the strictly
maximal utilization/capacity ratio and no boost, member 1 a large boost. -/
def st6 : Nat → AlgovCpu := fun j => if j = 1 then cpuD else cpuA

/-- Booster fixture: io-wait flag set, boost 400 already pending. -/
def cpuP : AlgovCpu :=
  { iowait_boost_pending := true, iowait_boost := 400,
    iowait_boost_max := 1000, last_update := 0, util := 0, max := 1024,
    flags := { iowait := true, dl := false }, cpu := 0,
    saved_idle_calls := 7, previous_util := 0 }

/-- Booster fixture: io-wait flag set, boost 300 not pending. -/
def cpuR : AlgovCpu :=
  { iowait_boost_pending := false, iowait_boost := 300,
    iowait_boost_max := 1000, last_update := 0, util := 0, max := 1024,
    flags := { iowait := true, dl := false }, cpu := 0,
    saved_idle_calls := 7, previous_util := 0 }

/-- Booster fixture: io-wait flag set, boost zero. -/
def cpuS : AlgovCpu :=
  { iowait_boost_pending := false, iowait_boost := 0,
    iowait_boost_max := 1000, last_update := 0, util := 0, max := 1024,
    flags := { iowait := true, dl := false }, cpu := 0,
    saved_idle_calls := 7, previous_util := 0 }

/-- Booster fixture: no io-wait flag, stale boost 500 from time 0. -/
def cpuQ : AlgovCpu :=
  { iowait_boost_pending := false, iowait_boost := 500,
    iowait_boost_max := 1000, last_update := 0, util := 0, max := 1024,
    flags := { iowait := false, dl := false }, cpu := 0,
    saved_idle_calls := 7, previous_util := 0 }

/-- Booster fixture: io-wait flag set, stale pending boost 500 from time 0. -/
def cpuT : AlgovCpu :=
  { iowait_boost_pending := true, iowait_boost := 500,
    iowait_boost_max := 1000, last_update := 0, util := 0, max := 1024,
    flags := { iowait := true, dl := false }, cpu := 0,
    saved_idle_calls := 7, previous_util := 0 }

/- Helper lemmas shared by several claims. -/

lemma rate_limit_false_iff (s : AlgovPolicy) (t : Int) (f : Nat) :
    algov_up_down_rate_limit s t f = false ↔
      (f ≤ s.next_freq ∨ s.up_rate_delay_ns ≤ t - s.last_freq_update_time) ∧
      (s.next_freq ≤ f ∨ s.down_rate_delay_ns ≤ t - s.last_freq_update_time) := by
  unfold algov_up_down_rate_limit
  simp only [Bool.or_eq_false_iff, Bool.and_eq_false_iff,
    decide_eq_false_iff_not, not_lt]

lemma update_next_freq_self (s : AlgovPolicy) (t : Int) :
    algov_update_next_freq s t s.next_freq = (false, s) := by
  unfold algov_update_next_freq algov_up_down_rate_limit
  simp

lemma update_next_freq_up_delay (s : AlgovPolicy) (t : Int) (f : Nat) :
    ((algov_update_next_freq s t f).2).up_rate_delay_ns =
      s.up_rate_delay_ns := by
  unfold algov_update_next_freq
  split
  · rfl
  · split
    · rfl
    · rfl

lemma update_next_freq_down_delay (s : AlgovPolicy) (t : Int) (f : Nat) :
    ((algov_update_next_freq s t f).2).down_rate_delay_ns =
      s.down_rate_delay_ns := by
  unfold algov_update_next_freq
  split
  · rfl
  · split
    · rfl
    · rfl

lemma update_next_freq_last (s : AlgovPolicy) (t : Int) (f : Nat) :
    ((algov_update_next_freq s t f).2).last_freq_update_time =
      s.last_freq_update_time ∨
    ((algov_update_next_freq s t f).2).last_freq_update_time = t := by
  unfold algov_update_next_freq
  split
  · exact Or.inl rfl
  · split
    · exact Or.inl rfl
    · exact Or.inr rfl

lemma accepted_up_facts (s : AlgovPolicy) (t : Int) (f : Nat)
    (hf : s.next_freq < f)
    (h : (algov_update_next_freq s t f).1 = true) :
    s.up_rate_delay_ns ≤ t - s.last_freq_update_time ∧
    ((algov_update_next_freq s t f).2).last_freq_update_time = t := by
  by_cases hrl : algov_up_down_rate_limit s t f = true
  · rw [algov_update_next_freq, if_pos hrl] at h
    exact absurd h (by simp)
  · have hrl' := eq_false_of_ne_true hrl
    have hd := (rate_limit_false_iff s t f).mp hrl'
    refine ⟨by omega, ?_⟩
    rw [algov_update_next_freq, if_neg (by simp [hrl']),
      if_neg (by omega)]

lemma accepted_down_facts (s : AlgovPolicy) (t : Int) (f : Nat)
    (hf : f < s.next_freq)
    (h : (algov_update_next_freq s t f).1 = true) :
    s.down_rate_delay_ns ≤ t - s.last_freq_update_time ∧
    ((algov_update_next_freq s t f).2).last_freq_update_time = t := by
  by_cases hrl : algov_up_down_rate_limit s t f = true
  · rw [algov_update_next_freq, if_pos hrl] at h
    exact absurd h (by simp)
  · have hrl' := eq_false_of_ne_true hrl
    have hd := (rate_limit_false_iff s t f).mp hrl'
    refine ⟨by omega, ?_⟩
    rw [algov_update_next_freq, if_neg (by simp [hrl']),
      if_neg (by omega)]

lemma runRL_up_delay (l : List (Int × Nat)) :
    ∀ s : AlgovPolicy, (runRL s l).up_rate_delay_ns = s.up_rate_delay_ns := by
  induction l with
  | nil => intro s; rfl
  | cons e rest ih =>
    intro s
    rw [runRL, ih, update_next_freq_up_delay]

lemma runRL_down_delay (l : List (Int × Nat)) :
    ∀ s : AlgovPolicy,
      (runRL s l).down_rate_delay_ns = s.down_rate_delay_ns := by
  induction l with
  | nil => intro s; rfl
  | cons e rest ih =>
    intro s
    rw [runRL, ih, update_next_freq_down_delay]

lemma runRL_last_ge (c : Int) (l : List (Int × Nat)) :
    ∀ s : AlgovPolicy, (∀ e ∈ l, c ≤ e.1) →
      c ≤ s.last_freq_update_time →
      c ≤ (runRL s l).last_freq_update_time := by
  induction l with
  | nil => intro s _ hs; exact hs
  | cons e rest ih =>
    intro s hl hs
    rw [runRL]
    refine ih _ (fun x hx => hl x (List.mem_cons_of_mem _ hx)) ?_
    rcases update_next_freq_last s e.1 e.2 with h | h
    · omega
    · have := hl e (List.mem_cons_self _ _)
      omega

lemma get_next_freq_next_freq (C : Ctx) (p : Policy) (s : AlgovPolicy)
    (util mx : Nat) (busy : Bool) :
    ((get_next_freq C p s util mx busy).2).next_freq = s.next_freq := by
  by_cases h : rawFreq C p util mx busy = s.cached_raw_freq ∧
      s.need_freq_update = false
  · simp [get_next_freq, h]
  · simp [get_next_freq, h]

/-- Claim C8: a write to the up- or down-rate-limit tunable returns the full
input count while leaving the tunables and every attached policy's derived
delays untouched (the store functions return before parsing the input). -/
theorem C8_rate_limit_store_noop (tunables : Tunables)
    (policies : List AlgovPolicy) (buf : String) (count : Nat) :
    up_rate_limit_us_store tunables policies buf count =
      (count, tunables, policies) ∧
    down_rate_limit_us_store tunables policies buf count =
      (count, tunables, policies) :=
  ⟨rfl, rfl⟩

/-- Claim C1 is false as stated: with `next_freq = 100` and both rate-limit
delays zero (so the rejection checks pass), the downward candidate 50 is not
accepted as-is but averaged to 75, and the upward candidate 200 is not
averaged to 150 but accepted as-is — the source dampens downward changes and
accepts upward ones, the reverse of the claim. -/
theorem C1_counterexample :
    algov_up_down_rate_limit cexPolicyState 0 50 = false ∧
    algov_up_down_rate_limit cexPolicyState 0 200 = false ∧
    (algov_update_next_freq cexPolicyState 0 50).2.next_freq = 75 ∧
    (algov_update_next_freq cexPolicyState 0 50).2.next_freq ≠ 50 ∧
    (algov_update_next_freq cexPolicyState 0 200).2.next_freq = 200 ∧
    (algov_update_next_freq cexPolicyState 0 200).2.next_freq ≠
      (100 + 200) / 2 := by
  decide

/-- Claim C1 (amended): for a candidate `f` that passes the rate-limit
rejection checks at time `t`, an upward change (`f` above the current
`next_freq`) is accepted as-is, while a downward change is dampened by
averaging: `next_freq` becomes `floor((next_freq + f) / 2)` (the sum taken
in 32-bit unsigned arithmetic); either acceptance records `t` as the last
change time. -/
theorem C1_freq_damping_direction (s : AlgovPolicy) (t : Int) (f : Nat)
    (hrl : algov_up_down_rate_limit s t f = false) :
    (s.next_freq < f →
      algov_update_next_freq s t f =
        (true, { s with next_freq := f, last_freq_update_time := t })) ∧
    (f < s.next_freq →
      algov_update_next_freq s t f =
        (true, { s with next_freq := (s.next_freq + f) % U32 / 2, last_freq_update_time := t })) := by
  constructor
  · intro h
    rw [algov_update_next_freq, if_neg (by simp [hrl]), if_neg (by omega)]
    simp [Nat.not_lt.mpr (Nat.le_of_lt h)]
  · intro h
    rw [algov_update_next_freq, if_neg (by simp [hrl]), if_neg (by omega)]
    simp [h]

/-- Witness for C1's amended theorem at concrete inputs: upward 100 → 200 is
accepted as-is, downward 100 → 50 becomes (100 + 50) / 2 = 75. -/
theorem C1_freq_damping_direction_witness :
    algov_update_next_freq cexPolicyState 0 200 =
      (true, { cexPolicyState with next_freq := 200, last_freq_update_time := 0 }) ∧
    algov_update_next_freq cexPolicyState 0 50 =
      (true, { cexPolicyState with next_freq := (cexPolicyState.next_freq + 50) % U32 / 2, last_freq_update_time := 0 }) :=
  ⟨(C1_freq_damping_direction cexPolicyState 0 200 (by decide)).1 (by decide),
   (C1_freq_damping_direction cexPolicyState 0 50 (by decide)).2 (by decide)⟩

/-- Claim C5: when the computed raw frequency equals the cached raw frequency
and no forced refresh is pending, the selector returns the previously chosen
frequency with the state unchanged; handing that frequency to the rate
limiter is a no-op, so any number of repeated evaluate-and-commit cycles
with identical `(utilization, capacity, busy)` inputs leaves the state fixed
and produces no actuation request. -/
theorem C5_cache_idempotence (C : Ctx) (p : Policy) (s : AlgovPolicy)
    (util mx : Nat) (busy : Bool) (t : Int)
    (hc : rawFreq C p util mx busy = s.cached_raw_freq)
    (hn : s.need_freq_update = false) :
    get_next_freq C p s util mx busy = (s.next_freq, s) ∧
    algov_update_next_freq s t s.next_freq = (false, s) ∧
    ∀ n, iterEvalCommit C p util mx busy t n s = (s, false) := by
  have h1 : get_next_freq C p s util mx busy = (s.next_freq, s) := by
    unfold get_next_freq
    rw [hc]
    simp [hn]
  have h2 := update_next_freq_self s t
  refine ⟨h1, h2, ?_⟩
  intro n
  induction n with
  | zero => rfl
  | succ n ih =>
    rw [iterEvalCommit]
    simp only [evalCommitStep, h1, h2, ih]
    rfl

/-- Claim C4: an upward candidate inside the `up_delay` window is rejected
with the cached raw frequency reset to zero (and analogously for downward
candidates and `down_delay`); and along any sequence of rate-limiter
evaluations whose timestamps do not precede an upward acceptance at `t₁`,
a later upward acceptance at `t₂` satisfies `t₂ - t₁ ≥ up_delay`, so two
upward changes are never both accepted within a window shorter than
`up_delay` (and analogously for downward changes and `down_delay`). -/
theorem C4_rate_limit_window :
    (∀ (s : AlgovPolicy) (t : Int) (f : Nat),
       s.next_freq < f →
       t - s.last_freq_update_time < s.up_rate_delay_ns →
       algov_update_next_freq s t f =
         (false, { s with cached_raw_freq := 0 })) ∧
    (∀ (s : AlgovPolicy) (t : Int) (f : Nat),
       f < s.next_freq →
       t - s.last_freq_update_time < s.down_rate_delay_ns →
       algov_update_next_freq s t f =
         (false, { s with cached_raw_freq := 0 })) ∧
    (∀ (s : AlgovPolicy) (t₁ : Int) (f₁ : Nat) (l : List (Int × Nat))
       (t₂ : Int) (f₂ : Nat),
       s.next_freq < f₁ →
       (algov_update_next_freq s t₁ f₁).1 = true →
       (∀ e ∈ l, t₁ ≤ e.1) →
       (runRL (algov_update_next_freq s t₁ f₁).2 l).next_freq < f₂ →
       (algov_update_next_freq (runRL (algov_update_next_freq s t₁ f₁).2 l)
         t₂ f₂).1 = true →
       s.up_rate_delay_ns ≤ t₂ - t₁) ∧
    (∀ (s : AlgovPolicy) (t₁ : Int) (f₁ : Nat) (l : List (Int × Nat))
       (t₂ : Int) (f₂ : Nat),
       f₁ < s.next_freq →
       (algov_update_next_freq s t₁ f₁).1 = true →
       (∀ e ∈ l, t₁ ≤ e.1) →
       f₂ < (runRL (algov_update_next_freq s t₁ f₁).2 l).next_freq →
       (algov_update_next_freq (runRL (algov_update_next_freq s t₁ f₁).2 l)
         t₂ f₂).1 = true →
       s.down_rate_delay_ns ≤ t₂ - t₁) := by
  refine ⟨?_, ?_, ?_, ?_⟩
  · intro s t f hf hd
    have hrl : algov_up_down_rate_limit s t f = true := by
      unfold algov_up_down_rate_limit
      simp only [Bool.or_eq_true, Bool.and_eq_true, decide_eq_true_eq]
      omega
    rw [algov_update_next_freq, if_pos hrl]
  · intro s t f hf hd
    have hrl : algov_up_down_rate_limit s t f = true := by
      unfold algov_up_down_rate_limit
      simp only [Bool.or_eq_true, Bool.and_eq_true, decide_eq_true_eq]
      omega
    rw [algov_update_next_freq, if_pos hrl]
  · intro s t₁ f₁ l t₂ f₂ hf₁ hacc₁ hl hf₂ hacc₂
    have h₁ := accepted_up_facts s t₁ f₁ hf₁ hacc₁
    have h₂ := accepted_up_facts _ t₂ f₂ hf₂ hacc₂
    have hup : (runRL (algov_update_next_freq s t₁ f₁).2 l).up_rate_delay_ns
        = s.up_rate_delay_ns := by
      rw [runRL_up_delay, update_next_freq_up_delay]
    have hlast :
        t₁ ≤ (runRL (algov_update_next_freq s t₁ f₁).2 l).last_freq_update_time :=
      runRL_last_ge t₁ l _ hl (le_of_eq h₁.2.symm)
    omega
  · intro s t₁ f₁ l t₂ f₂ hf₁ hacc₁ hl hf₂ hacc₂
    have h₁ := accepted_down_facts s t₁ f₁ hf₁ hacc₁
    have h₂ := accepted_down_facts _ t₂ f₂ hf₂ hacc₂
    have hdown : (runRL (algov_update_next_freq s t₁ f₁).2 l).down_rate_delay_ns
        = s.down_rate_delay_ns := by
      rw [runRL_down_delay, update_next_freq_down_delay]
    have hlast :
        t₁ ≤ (runRL (algov_update_next_freq s t₁ f₁).2 l).last_freq_update_time :=
      runRL_last_ge t₁ l _ hl (le_of_eq h₁.2.symm)
    omega

/-- Witness for C4 at concrete inputs: with 1000ns delays and last change at
time 0, an upward candidate at t = 5 and a downward candidate at t = 5 are
rejected with the cache reset; and after an acceptance at t₁ = 2000, a
second acceptance in the same direction at t₂ = 3000 satisfies the
1000ns-window bound. -/
theorem C4_rate_limit_window_witness :
    algov_update_next_freq rlW 5 200 = (false, { rlW with cached_raw_freq := 0 }) ∧
    algov_update_next_freq rlW 5 50 = (false, { rlW with cached_raw_freq := 0 }) ∧
    rlW.up_rate_delay_ns ≤ 3000 - 2000 ∧
    rlW.down_rate_delay_ns ≤ 3000 - 2000 :=
  ⟨C4_rate_limit_window.1 rlW 5 200 (by decide) (by decide),
   C4_rate_limit_window.2.1 rlW 5 50 (by decide) (by decide),
   C4_rate_limit_window.2.2.1 rlW 2000 200 [] 3000 300 (by decide) (by decide)
     (by simp) (by decide) (by decide),
   C4_rate_limit_window.2.2.2 rlW 2000 50 [] 3000 30 (by decide) (by decide)
     (by simp) (by decide) (by decide)⟩

lemma set_iowait_boost_shape (C : Ctx) (enable : Bool) (pmin : Nat)
    (c : AlgovCpu) (t : Int) :
    ∃ b pend, algov_set_iowait_boost C enable pmin c t =
      { c with iowait_boost := b, iowait_boost_pending := pend } := by
  simp only [algov_set_iowait_boost]
  repeat' split
  all_goals exact ⟨_, _, rfl⟩

/-- Claim C2 is false as stated: a DeadlineClass update does not always
request the actuator's maximum frequency.  With the default-derived delays
and last change at time 0, a DL update at t = 1000 (inside the 500000ns
min-rate-limit window) reaches the apply path with no candidate at all; the
same happens when a deferred actuation is in progress; and even when the
evaluation gate passes (forced refresh), the max-frequency candidate is
rejected by the up-rate limiter, leaving `next_freq` at 500. -/
theorem C2_counterexample :
    (algov_update_single ctx0 p1 true polGate cpu0 1000
      { iowait := false, dl := true } 0 1024).candidate = none ∧
    (algov_update_single ctx0 p1 true
      { polGate with work_in_progress := true } cpu0 1000000000
      { iowait := false, dl := true } 0 1024).candidate = none ∧
    (algov_update_single ctx0 p1 true polGateForced cpu0 1000
      { iowait := false, dl := true } 0 1024).candidate =
        some p1.cpuinfo_max_freq ∧
    (algov_update_single ctx0 p1 true polGateForced cpu0 1000
      { iowait := false, dl := true } 0 1024).accepted = false ∧
    (algov_update_single ctx0 p1 true polGateForced cpu0 1000
      { iowait := false, dl := true } 0 1024).pol.next_freq = 500 := by
  decide

/-- Claim C2 (amended): a DeadlineClass update uses the actuator's maximum
frequency as the candidate handed to the apply path (in both the single and
the shared update path), but only when the update passes the
work-in-progress check and the min-rate-limit evaluation gate; the
candidate remains subject to the rate limiter of `algov_update_next_freq`
and can be rejected there. -/
theorem C2_dl_candidate_max (C : Ctx) (p : Policy) (enable : Bool)
    (pol : AlgovPolicy) (cpu : AlgovCpu) (st : Nat → AlgovCpu) (p_idx : Nat)
    (t : Int) (flags : Flags) (utilIn maxIn : Nat)
    (hdl : flags.dl = true)
    (hw : pol.work_in_progress = false)
    (hs : algov_should_update_freq C p pol t = true) :
    (algov_update_single C p enable pol cpu t flags utilIn
      maxIn).candidate = some p.cpuinfo_max_freq ∧
    (algov_update_shared C p enable pol st p_idx t utilIn maxIn
      flags).candidate = some p.cpuinfo_max_freq := by
  constructor
  · simp only [algov_update_single, hw, hs, hdl]
    simp
  · simp only [algov_update_shared, hs, hdl]
    simp

/-- Witness for C2's amended theorem: at t = 600000 the evaluation gate
passes and a DL update requests the maximum frequency on both paths. -/
theorem C2_dl_candidate_max_witness :
    (algov_update_single ctx0 p1 true polGate cpu0 600000
      { iowait := false, dl := true } 0 1024).candidate =
        some p1.cpuinfo_max_freq ∧
    (algov_update_shared ctx0 p2 true polGate st0 0 600000 0 1024
      { iowait := false, dl := true }).candidate =
        some p2.cpuinfo_max_freq :=
  ⟨(C2_dl_candidate_max ctx0 p1 true polGate cpu0 st0 0 600000
      { iowait := false, dl := true } 0 1024 (by decide) (by decide)
      (by decide)).1,
   (C2_dl_candidate_max ctx0 p2 true polGate cpu0 st0 0 600000
      { iowait := false, dl := true } 0 1024 (by decide) (by decide)
      (by decide)).2⟩

/-- Claim C10: while a deferred actuation is in progress, an incoming
single-path update performs no frequency evaluation: only io-wait boost
bookkeeping and the last-update timestamp are recorded on the CPU state
(all other CPU fields, in particular the busy-classifier fields, are
unchanged), the policy state is untouched, and no candidate reaches the
apply path. -/
theorem C10_work_in_progress_early_return (C : Ctx) (p : Policy)
    (enable : Bool) (pol : AlgovPolicy) (cpu : AlgovCpu) (t : Int)
    (flags : Flags) (utilIn maxIn : Nat)
    (hw : pol.work_in_progress = true) :
    algov_update_single C p enable pol cpu t flags utilIn maxIn =
      ⟨singleCpuStamped C p enable cpu t, pol, none, false, false⟩ ∧
    (algov_update_single C p enable pol cpu t flags utilIn
      maxIn).cpu.saved_idle_calls = cpu.saved_idle_calls ∧
    (algov_update_single C p enable pol cpu t flags utilIn
      maxIn).cpu.previous_util = cpu.previous_util ∧
    (algov_update_single C p enable pol cpu t flags utilIn
      maxIn).cpu.util = cpu.util ∧
    (algov_update_single C p enable pol cpu t flags utilIn
      maxIn).cpu.max = cpu.max ∧
    (algov_update_single C p enable pol cpu t flags utilIn
      maxIn).cpu.flags = cpu.flags ∧
    (algov_update_single C p enable pol cpu t flags utilIn
      maxIn).pol = pol ∧
    (algov_update_single C p enable pol cpu t flags utilIn
      maxIn).candidate = none := by
  have h1 : algov_update_single C p enable pol cpu t flags utilIn maxIn =
      ⟨singleCpuStamped C p enable cpu t, pol, none, false, false⟩ := by
    simp only [algov_update_single, hw]
    simp
  obtain ⟨b, pend, hsh⟩ := set_iowait_boost_shape C enable p.min cpu t
  rw [h1]
  rw [singleCpuStamped, hsh]
  refine ⟨rfl, rfl, rfl, rfl, rfl, rfl, rfl, rfl⟩

/-- Witness for C10 at a concrete input: with `work_in_progress` set, the
update records only the timestamp (the fixture has no boost activity) and
leaves the policy untouched. -/
theorem C10_work_in_progress_early_return_witness :
    algov_update_single ctx0 p1 true
      { polGate with work_in_progress := true } cpu0 12345
      { iowait := false, dl := false } 100 1024 =
      ⟨singleCpuStamped ctx0 p1 true cpu0 12345,
        { polGate with work_in_progress := true }, none, false, false⟩ :=
  (C10_work_in_progress_early_return ctx0 p1 true
    { polGate with work_in_progress := true } cpu0 12345
    { iowait := false, dl := false } 100 1024 (by decide)).1

lemma commit_discard (p : Policy) (s : AlgovPolicy) (t : Int) (f : Nat)
    (h : s.next_freq = f) :
    algov_commit p s t f = (s, false, false) := by
  subst h
  unfold algov_commit
  rw [update_next_freq_self]
  simp

/-- Claim C9: on the single-CPU non-DL path, when the CPU is classified busy
and the freshly computed frequency is below the current `next_freq` (which
is not UINT_MAX), the downward result is discarded: the candidate handed to
the apply path is the unchanged `next_freq`, the cached raw frequency is
reset to zero, and the evaluation accepts no change, so the frequency is
not reduced. -/
theorem C9_busy_no_freq_reduction (C : Ctx) (p : Policy) (enable : Bool)
    (pol : AlgovPolicy) (cpu : AlgovCpu) (t : Int) (flags : Flags)
    (utilIn maxIn : Nat)
    (hw : pol.work_in_progress = false)
    (hs : algov_should_update_freq C p pol t = true)
    (hdl : flags.dl = false)
    (hp : C.use_pelt = true)
    (hb : C.idle_calls = cpu.saved_idle_calls)
    (hlow : (get_next_freq C p pol
        (singleBoostedPair C p enable cpu t utilIn maxIn).1
        (singleBoostedPair C p enable cpu t utilIn maxIn).2 true).1 <
      pol.next_freq)
    (hne : pol.next_freq ≠ UINT_MAX) :
    (algov_update_single C p enable pol cpu t flags utilIn
      maxIn).candidate = some pol.next_freq ∧
    (algov_update_single C p enable pol cpu t flags utilIn
      maxIn).accepted = false ∧
    (algov_update_single C p enable pol cpu t flags utilIn
      maxIn).pol.next_freq = pol.next_freq ∧
    (algov_update_single C p enable pol cpu t flags utilIn
      maxIn).pol.cached_raw_freq = 0 := by
  obtain ⟨bb, pend, hsh⟩ := set_iowait_boost_shape C enable p.min cpu t
  have hbusy : singleBusy C p enable cpu t = true := by
    simp [singleBusy, singleCpuStamped, algov_cpu_is_busy, hsh, hb, hp]
  simp only [algov_update_single, hw, hs, hdl, hbusy, Bool.false_eq_true,
    Bool.true_eq_false, if_false, get_next_freq_next_freq]
  rw [if_pos ⟨trivial, hlow, hne⟩]
  rw [commit_discard p _ t _ rfl]
  exact ⟨rfl, rfl, rfl, rfl⟩

/-- Witness for C9 at concrete inputs: busy CPU (idle counter unchanged),
computed frequency 11 below `next_freq` 500, so the candidate is the
unchanged 500, nothing is accepted and the cache is reset. -/
theorem C9_busy_no_freq_reduction_witness :
    (algov_update_single ctx0 p1 true polGate cpu0 1000000000
      { iowait := false, dl := false } 100 1024).candidate =
        some polGate.next_freq ∧
    (algov_update_single ctx0 p1 true polGate cpu0 1000000000
      { iowait := false, dl := false } 100 1024).accepted = false ∧
    (algov_update_single ctx0 p1 true polGate cpu0 1000000000
      { iowait := false, dl := false } 100 1024).pol.next_freq =
        polGate.next_freq ∧
    (algov_update_single ctx0 p1 true polGate cpu0 1000000000
      { iowait := false, dl := false } 100 1024).pol.cached_raw_freq = 0 :=
  C9_busy_no_freq_reduction ctx0 p1 true polGate cpu0 1000000000
    { iowait := false, dl := false } 100 1024 (by decide) (by decide)
    (by decide) (by decide) (by decide) (by decide) (by decide)

lemma iowait_boost_frame (pmin : Nat) (c : AlgovCpu) (u m : Nat) :
    ∃ b pend, (algov_iowait_boost pmin c u m).1 =
      { c with iowait_boost := b, iowait_boost_pending := pend } := by
  unfold algov_iowait_boost algov_iowait_boost_apply
  repeat' split
  all_goals exact ⟨_, _, rfl⟩

lemma iowait_boost_previous_util (pmin : Nat) (c : AlgovCpu) (u m : Nat) :
    ((algov_iowait_boost pmin c u m).1).previous_util = c.previous_util := by
  obtain ⟨b, pend, hsh⟩ := iowait_boost_frame pmin c u m
  rw [hsh]

lemma agg_step_previous_util (C : Ctx) (pmin : Nat) (t : Int) (p_idx : Nat)
    (acc : SharedAgg) (j k : Nat) :
    ((agg_step C pmin t p_idx acc j).st k).previous_util =
      (acc.st k).previous_util := by
  simp only [agg_step]
  split
  · by_cases hk : k = j <;> simp [updMap, hk]
  · split
    · rfl
    · by_cases hk : k = j <;>
        simp [updMap, hk, iowait_boost_previous_util, algov_cpu_is_busy]

lemma agg_loop_previous_util (C : Ctx) (pmin : Nat) (t : Int) (p_idx : Nat) :
    ∀ (l : List Nat) (acc : SharedAgg) (k : Nat),
      ((agg_loop C pmin t p_idx l acc).st k).previous_util =
        (acc.st k).previous_util := by
  intro l
  induction l with
  | nil => intro acc k; rfl
  | cons j rest ih =>
    intro acc k
    simp only [agg_loop]
    split
    · exact agg_step_previous_util C pmin t p_idx acc j k
    · rw [ih]
      exact agg_step_previous_util C pmin t p_idx acc j k

/-- Claim C3 is false as stated: in the two-member domain {cpuA, cpuB} with
an update triggered by CPU 0, the aggregation's per-member busy check
overwrites CPU 1's saved idle-entry counter (5 becomes the current reading
7), even though CPU 1 is not the triggering CPU and is not stale. -/
theorem C3_counterexample :
    ((algov_next_freq_shared ctx0 p2 polGate st0 0 0).st 1).saved_idle_calls ≠
      (st0 1).saved_idle_calls ∧
    ((algov_next_freq_shared ctx0 p2 polGate st0 0 0).st 1).saved_idle_calls
      = 7 ∧
    (st0 1).saved_idle_calls = 5 := by
  decide

/-- Claim C3 (amended): during a multi-processor aggregation triggered by
processor `p_idx`, the previous-utilization half of the busy-classifier
state of every member other than `p_idx` is left unchanged (the saved
idle-entry counter, by contrast, is overwritten by the scan's per-member
busy check, as the counterexample shows). -/
theorem C3_previous_util_frame (C : Ctx) (p : Policy) (pol : AlgovPolicy)
    (st : Nat → AlgovCpu) (p_idx : Nat) (t : Int) (k : Nat)
    (hk : k ≠ p_idx) :
    ((algov_next_freq_shared C p pol st p_idx t).st k).previous_util =
      (st k).previous_util := by
  simp only [algov_next_freq_shared]
  split
  · exact agg_loop_previous_util C p.min t p_idx p.cpus _ k
  · have h := agg_loop_previous_util C p.min t p_idx p.cpus
      { st := st, util := 0, mx := 1, busy := false, dl := false,
        sg_cpu_util := 0 } k
    simp only [updMap, hk, if_false]
    simpa using h

/-- Witness for C3's amended theorem: member 1's previous-utilization field
survives an aggregation triggered by member 0. -/
theorem C3_previous_util_frame_witness :
    ((algov_next_freq_shared ctx0 p2 polGate st0 0 0).st 1).previous_util =
      (st0 1).previous_util :=
  C3_previous_util_frame ctx0 p2 polGate st0 0 0 1 (by decide)

/-- Witness for C5 at concrete inputs: with the raw frequency for
(util 100, capacity 1024) already cached (value 11) and no forced refresh,
the selector returns `next_freq` with the state unchanged, the commit is a
no-op, and three repeated cycles produce no actuation. -/
theorem C5_cache_idempotence_witness :
    get_next_freq ctx0 p1 { polGate with cached_raw_freq := 11 } 100 1024
        false =
      ({ polGate with cached_raw_freq := 11 }.next_freq,
       { polGate with cached_raw_freq := 11 }) ∧
    algov_update_next_freq { polGate with cached_raw_freq := 11 } 777
        { polGate with cached_raw_freq := 11 }.next_freq =
      (false, { polGate with cached_raw_freq := 11 }) ∧
    ∀ n, iterEvalCommit ctx0 p1 100 1024 false 777 n
        { polGate with cached_raw_freq := 11 } =
      ({ polGate with cached_raw_freq := 11 }, false) :=
  C5_cache_idempotence ctx0 p1 { polGate with cached_raw_freq := 11 }
    100 1024 false 777 (by decide) (by decide)

/-- Claim C7: the per-processor io-wait booster (with boosting enabled)
follows the ramp-and-decay protocol: with the io-wait flag set, a pending
boost does not ramp; a non-pending nonzero boost is doubled (32-bit) and
clamped to boost-max with the pending mark set; a zero boost is seeded with
the policy minimum; a nonzero boost older than one scheduling tick is
cleared (and, when the flag is set, re-seeded from zero); and on a
consuming cycle a non-pending boost is halved, dropping to zero below the
minimum seed, while a pending boost is consumed unchanged. -/
theorem C7_iowait_boost_protocol (C : Ctx) (pmin : Nat) (c : AlgovCpu)
    (t : Int) (u m : Nat) :
    (c.flags.iowait = true → c.iowait_boost_pending = true →
      ¬(c.iowait_boost ≠ 0 ∧ t - c.last_update > C.tick_nsec) →
      algov_set_iowait_boost C true pmin c t = c) ∧
    (c.flags.iowait = true → c.iowait_boost_pending = false →
      c.iowait_boost ≠ 0 → ¬ t - c.last_update > C.tick_nsec →
      algov_set_iowait_boost C true pmin c t =
        { c with iowait_boost_pending := true,
                 iowait_boost := min (2 * c.iowait_boost % U32)
                   c.iowait_boost_max }) ∧
    (c.flags.iowait = true → c.iowait_boost_pending = false →
      c.iowait_boost = 0 →
      algov_set_iowait_boost C true pmin c t =
        { c with iowait_boost_pending := true, iowait_boost := pmin }) ∧
    (c.iowait_boost ≠ 0 → t - c.last_update > C.tick_nsec →
      c.flags.iowait = false →
      algov_set_iowait_boost C true pmin c t =
        { c with iowait_boost := 0, iowait_boost_pending := false }) ∧
    (c.iowait_boost ≠ 0 → t - c.last_update > C.tick_nsec →
      c.flags.iowait = true →
      algov_set_iowait_boost C true pmin c t =
        { c with iowait_boost_pending := true, iowait_boost := pmin }) ∧
    (c.iowait_boost ≠ 0 → c.iowait_boost_pending = false →
      ((algov_iowait_boost pmin c u m).1).iowait_boost =
        if c.iowait_boost / 2 < pmin then 0 else c.iowait_boost / 2) ∧
    (c.iowait_boost ≠ 0 → c.iowait_boost_pending = true →
      ((algov_iowait_boost pmin c u m).1).iowait_boost = c.iowait_boost ∧
      ((algov_iowait_boost pmin c u m).1).iowait_boost_pending = false) := by
  refine ⟨?_, ?_, ?_, ?_, ?_, ?_, ?_⟩
  · intro hf hp hns
    simp only [algov_set_iowait_boost, Bool.true_eq_false, if_false,
      if_neg hns, hf, hp, eq_self_iff_true, if_true]
  · intro hf hp hnz hns
    have hstale : ¬(c.iowait_boost ≠ 0 ∧ t - c.last_update > C.tick_nsec) :=
      fun h => hns h.2
    simp only [algov_set_iowait_boost, Bool.true_eq_false, if_false,
      if_neg hstale, hf, hp, Bool.false_eq_true, eq_self_iff_true, if_true,
      if_pos hnz]
  · intro hf hp hz
    have hstale : ¬(c.iowait_boost ≠ 0 ∧ t - c.last_update > C.tick_nsec) :=
      fun h => h.1 hz
    simp only [algov_set_iowait_boost, Bool.true_eq_false, if_false,
      if_neg hstale, hf, hp, Bool.false_eq_true, eq_self_iff_true, if_true]
    rw [if_neg (by simp [hz])]
  · intro hnz hst hf
    simp only [algov_set_iowait_boost, Bool.true_eq_false, if_false,
      if_pos (And.intro hnz hst), hf, Bool.false_eq_true]
  · intro hnz hst hf
    simp only [algov_set_iowait_boost, Bool.true_eq_false, if_false,
      if_pos (And.intro hnz hst), hf, Bool.false_eq_true, eq_self_iff_true,
      if_true]
    rw [if_neg (by simp)]
  · intro hnz hp
    simp only [algov_iowait_boost, if_neg hnz, hp, Bool.false_eq_true,
      if_false]
    split
    · rfl
    · rw [algov_iowait_boost_apply]
      split <;> rfl
  · intro hnz hp
    simp only [algov_iowait_boost, if_neg hnz, hp, eq_self_iff_true,
      if_true]
    constructor <;> (rw [algov_iowait_boost_apply]; split <;> rfl)

/-- Witness for C7 at concrete inputs (policy minimum 200, tick 1000000ns):
pending boost 400 does not ramp; non-pending boost 300 doubles to 600;
zero boost seeds to 200; stale boost 500 without the flag clears to zero,
with the flag it re-seeds to 200; decay halves 300 to 150 which is below
the seed and so clears to zero; a pending boost 400 is consumed unchanged. -/
theorem C7_iowait_boost_protocol_witness :
    algov_set_iowait_boost ctx0 true 200 cpuP 100 = cpuP ∧
    algov_set_iowait_boost ctx0 true 200 cpuR 100 =
      { cpuR with iowait_boost_pending := true,
                  iowait_boost := min (2 * cpuR.iowait_boost % U32)
                    cpuR.iowait_boost_max } ∧
    algov_set_iowait_boost ctx0 true 200 cpuS 100 =
      { cpuS with iowait_boost_pending := true, iowait_boost := 200 } ∧
    algov_set_iowait_boost ctx0 true 200 cpuQ 2000000 =
      { cpuQ with iowait_boost := 0, iowait_boost_pending := false } ∧
    algov_set_iowait_boost ctx0 true 200 cpuT 2000000 =
      { cpuT with iowait_boost_pending := true, iowait_boost := 200 } ∧
    ((algov_iowait_boost 200 cpuR 50 1024).1).iowait_boost =
      (if cpuR.iowait_boost / 2 < 200 then 0 else cpuR.iowait_boost / 2) ∧
    ((algov_iowait_boost 200 cpuP 50 1024).1).iowait_boost =
      cpuP.iowait_boost ∧
    ((algov_iowait_boost 200 cpuP 50 1024).1).iowait_boost_pending =
      false :=
  ⟨(C7_iowait_boost_protocol ctx0 200 cpuP 100 50 1024).1 (by decide)
      (by decide) (by decide),
   (C7_iowait_boost_protocol ctx0 200 cpuR 100 50 1024).2.1 (by decide)
      (by decide) (by decide) (by decide),
   (C7_iowait_boost_protocol ctx0 200 cpuS 100 50 1024).2.2.1 (by decide)
      (by decide) (by decide),
   (C7_iowait_boost_protocol ctx0 200 cpuQ 2000000 50 1024).2.2.2.1
      (by decide) (by decide) (by decide),
   (C7_iowait_boost_protocol ctx0 200 cpuT 2000000 50 1024).2.2.2.2.1
      (by decide) (by decide) (by decide),
   (C7_iowait_boost_protocol ctx0 200 cpuR 100 50 1024).2.2.2.2.2.1
      (by decide) (by decide),
   ((C7_iowait_boost_protocol ctx0 200 cpuP 100 50 1024).2.2.2.2.2.2
      (by decide) (by decide)).1,
   ((C7_iowait_boost_protocol ctx0 200 cpuP 100 50 1024).2.2.2.2.2.2
      (by decide) (by decide)).2⟩

lemma iowait_boost_zero (pmin : Nat) (c : AlgovCpu) (u m : Nat)
    (h : c.iowait_boost = 0) :
    algov_iowait_boost pmin c u m = (c, u, m) := by
  rw [algov_iowait_boost, if_pos h]

lemma pairStep_cases (a q : Nat × Nat) :
    pairStep a q = a ∨ pairStep a q = q := by
  unfold pairStep
  split
  · exact Or.inr rfl
  · exact Or.inl rfl

lemma pairStep_pos (a q : Nat × Nat) (ha : 0 < a.2) (hq : 0 < q.2) :
    0 < (pairStep a q).2 := by
  rcases pairStep_cases a q with h | h <;> rw [h] <;> assumption

lemma mul_lt_u64 {x y : Nat} (hx : x < U32) (hy : y < U32) :
    x * y < U64 := by
  have h1 : x * y ≤ (U32 - 1) * (U32 - 1) :=
    Nat.mul_le_mul (by omega) (by omega)
  have h2 : (U32 - 1) * (U32 - 1) < U64 := by norm_num [U32, U64]
  omega

lemma pairStep_bounds (a q : Nat × Nat) (ha1 : a.1 < U32) (ha2 : a.2 < U32)
    (hq1 : q.1 < U32) (hq2 : q.2 < U32) :
    (pairStep a q).1 < U32 ∧ (pairStep a q).2 < U32 := by
  rcases pairStep_cases a q with h | h <;> rw [h] <;> exact ⟨by omega, by omega⟩

lemma pairStep_ge (a q : Nat × Nat) (ha1 : a.1 < U32) (ha2 : a.2 < U32)
    (hq1 : q.1 < U32) (hq2 : q.2 < U32) :
    a.1 * (pairStep a q).2 ≤ a.2 * (pairStep a q).1 ∧
    q.1 * (pairStep a q).2 ≤ q.2 * (pairStep a q).1 := by
  have hm1 : q.1 * a.2 % U64 = q.1 * a.2 :=
    Nat.mod_eq_of_lt (mul_lt_u64 hq1 ha2)
  have hm2 : q.2 * a.1 % U64 = q.2 * a.1 :=
    Nat.mod_eq_of_lt (mul_lt_u64 hq2 ha1)
  unfold pairStep
  rw [hm1, hm2]
  split
  · rename_i h
    refine ⟨?_, Nat.le_of_eq (Nat.mul_comm _ _)⟩
    calc a.1 * q.2 = q.2 * a.1 := Nat.mul_comm _ _
      _ ≤ q.1 * a.2 := Nat.le_of_lt h
      _ = a.2 * q.1 := Nat.mul_comm _ _
  · rename_i h
    exact ⟨Nat.le_of_eq (Nat.mul_comm _ _), Nat.le_of_not_lt h⟩

lemma ratio_le_trans (a b c : Nat × Nat) (hb : 0 < b.2)
    (h1 : a.1 * b.2 ≤ a.2 * b.1) (h2 : b.1 * c.2 ≤ b.2 * c.1) :
    a.1 * c.2 ≤ a.2 * c.1 := by
  have key : a.1 * c.2 * b.2 ≤ a.2 * c.1 * b.2 := by
    calc a.1 * c.2 * b.2 = a.1 * b.2 * c.2 := by ring
      _ ≤ a.2 * b.1 * c.2 := Nat.mul_le_mul_right _ h1
      _ = a.2 * (b.1 * c.2) := by ring
      _ ≤ a.2 * (b.2 * c.1) := Nat.mul_le_mul_left _ h2
      _ = a.2 * c.1 * b.2 := by ring
  exact Nat.le_of_mul_le_mul_right key hb

lemma pairFold_pos : ∀ (l : List (Nat × Nat)) (a : Nat × Nat), 0 < a.2 →
    (∀ q ∈ l, 0 < q.2) → 0 < (l.foldl pairStep a).2 := by
  intro l
  induction l with
  | nil => intro a ha _; exact ha
  | cons q rest ih =>
    intro a ha hl
    rw [List.foldl_cons]
    exact ih _ (pairStep_pos a q ha (hl q (List.mem_cons_self _ _)))
      (fun x hx => hl x (List.mem_cons_of_mem _ hx))

lemma pairFold_dominates : ∀ (l : List (Nat × Nat)) (a : Nat × Nat),
    0 < a.2 → a.1 < U32 → a.2 < U32 →
    (∀ q ∈ l, 0 < q.2 ∧ q.1 < U32 ∧ q.2 < U32) →
    a.1 * (l.foldl pairStep a).2 ≤ a.2 * (l.foldl pairStep a).1 ∧
    ∀ q ∈ l, q.1 * (l.foldl pairStep a).2 ≤ q.2 * (l.foldl pairStep a).1 := by
  intro l
  induction l with
  | nil =>
    intro a _ _ _ _
    exact ⟨Nat.le_of_eq (Nat.mul_comm _ _), by simp⟩
  | cons q rest ih =>
    intro a ha ha1 ha2 hl
    have hq := hl q (List.mem_cons_self _ _)
    have hrest : ∀ x ∈ rest, 0 < x.2 ∧ x.1 < U32 ∧ x.2 < U32 :=
      fun x hx => hl x (List.mem_cons_of_mem _ hx)
    have hstep := pairStep_ge a q ha1 ha2 hq.2.1 hq.2.2
    have hpos := pairStep_pos a q ha hq.1
    have hbnd := pairStep_bounds a q ha1 ha2 hq.2.1 hq.2.2
    have IH := ih (pairStep a q) hpos hbnd.1 hbnd.2 hrest
    rw [List.foldl_cons]
    refine ⟨ratio_le_trans a (pairStep a q) _ hpos hstep.1 IH.1, ?_⟩
    intro x hx
    rcases List.mem_cons.mp hx with rfl | hx'
    · exact ratio_le_trans x (pairStep a x) _ hpos hstep.2 IH.1
    · exact IH.2 x hx'

lemma pairFold_mem : ∀ (l : List (Nat × Nat)) (a : Nat × Nat),
    l.foldl pairStep a = a ∨ l.foldl pairStep a ∈ l := by
  intro l
  induction l with
  | nil => intro a; exact Or.inl rfl
  | cons q rest ih =>
    intro a
    rw [List.foldl_cons]
    rcases ih (pairStep a q) with h | h
    · rcases pairStep_cases a q with h2 | h2
      · exact Or.inl (h.trans h2)
      · rw [h, h2]
        exact Or.inr (List.mem_cons_self _ _)
    · exact Or.inr (List.mem_cons_of_mem _ h)

lemma agg_step_stale (C : Ctx) (pmin : Nat) (t : Int) (p_idx : Nat)
    (acc : SharedAgg) (j : Nat)
    (h : t - (acc.st j).last_update > C.stale_ns) :
    agg_step C pmin t p_idx acc j =
      { acc with
        st := updMap acc.st j { acc.st j with iowait_boost := 0, iowait_boost_pending := false } } := by
  simp only [agg_step, if_pos h]

lemma agg_step_main (C : Ctx) (pmin : Nat) (t : Int) (p_idx : Nat)
    (acc : SharedAgg) (j : Nat)
    (hst : ¬ t - (acc.st j).last_update > C.stale_ns)
    (hdl : (acc.st j).flags.dl = false)
    (hbz : (acc.st j).iowait_boost = 0) :
    agg_step C pmin t p_idx acc j =
      { st := updMap acc.st j { acc.st j with saved_idle_calls := C.idle_calls },
        util := (pairStep (acc.util, acc.mx)
          ((acc.st j).util, (acc.st j).max)).1,
        mx := (pairStep (acc.util, acc.mx)
          ((acc.st j).util, (acc.st j).max)).2,
        busy := acc.busy ||
          decide (C.idle_calls = (acc.st j).saved_idle_calls),
        dl := false,
        sg_cpu_util := if j = p_idx then (acc.st j).util
          else acc.sg_cpu_util } := by
  simp only [agg_step, if_neg hst, hdl, Bool.false_eq_true, if_false,
    algov_cpu_is_busy]
  rw [iowait_boost_zero _ _ _ _ (by simpa using hbz)]
  simp [pairStep]

lemma agg_loop_pure (C : Ctx) (pmin : Nat) (t : Int) (p_idx : Nat)
    (st : Nat → AlgovCpu) :
    ∀ (l : List Nat) (acc : SharedAgg),
      l.Nodup → (∀ j ∈ l, acc.st j = st j) →
      (∀ j ∈ l, (st j).iowait_boost = 0) →
      (∀ j ∈ l, (st j).flags.dl = false) →
      acc.dl = false →
      (agg_loop C pmin t p_idx l acc).dl = false ∧
      ((agg_loop C pmin t p_idx l acc).util,
        (agg_loop C pmin t p_idx l acc).mx) =
        (aggPairs C st t l).foldl pairStep (acc.util, acc.mx) ∧
      (agg_loop C pmin t p_idx l acc).busy =
        (acc.busy || aggBusySpec C st t l) := by
  intro l
  induction l with
  | nil =>
    intro acc _ _ _ _ hacc
    refine ⟨hacc, rfl, ?_⟩
    simp [agg_loop, aggBusySpec]
  | cons j rest ih =>
    intro acc hnd hst hbz hdl hacc
    have hj : acc.st j = st j := hst j (List.mem_cons_self _ _)
    have hjrest : j ∉ rest := (List.nodup_cons.mp hnd).1
    have hndrest : rest.Nodup := (List.nodup_cons.mp hnd).2
    by_cases hstale : t - (st j).last_update > C.stale_ns
    · have hstep := agg_step_stale C pmin t p_idx acc j (by rw [hj]; exact hstale)
      simp only [agg_loop]
      rw [hstep]
      simp only [hacc, Bool.false_eq_true, if_false]
      have hst' : ∀ k ∈ rest,
          (updMap acc.st j { acc.st j with iowait_boost := 0, iowait_boost_pending := false }) k = st k := by
        intro k hk
        have : k ≠ j := fun h => hjrest (h ▸ hk)
        simp only [updMap, this, if_false]
        exact hst k (List.mem_cons_of_mem _ hk)
      have IH := ih
        { st := updMap acc.st j { acc.st j with iowait_boost := 0, iowait_boost_pending := false },
          util := acc.util, mx := acc.mx, busy := acc.busy, dl := false,
          sg_cpu_util := acc.sg_cpu_util }
        hndrest hst'
        (fun k hk => hbz k (List.mem_cons_of_mem _ hk))
        (fun k hk => hdl k (List.mem_cons_of_mem _ hk)) rfl
      have hnel : ¬ t ≤ C.stale_ns + (st j).last_update := by omega
      refine ⟨IH.1, IH.2.1.trans ?_, IH.2.2.trans ?_⟩
      · simp [aggPairs, List.filter_cons, hnel]
      · simp [aggBusySpec, List.filter_cons, hnel]
    · have hstep := agg_step_main C pmin t p_idx acc j
        (by rw [hj]; exact hstale)
        (by rw [hj]; exact hdl j (List.mem_cons_self _ _))
        (by rw [hj]; exact hbz j (List.mem_cons_self _ _))
      rw [hj] at hstep
      simp only [agg_loop]
      rw [hstep]
      simp only [Bool.false_eq_true, if_false]
      have hst' : ∀ k ∈ rest,
          (updMap acc.st j { st j with saved_idle_calls := C.idle_calls }) k = st k := by
        intro k hk
        have : k ≠ j := fun h => hjrest (h ▸ hk)
        simp only [updMap, this, if_false]
        exact hst k (List.mem_cons_of_mem _ hk)
      have IH := ih
        { st := updMap acc.st j { st j with saved_idle_calls := C.idle_calls },
          util := (pairStep (acc.util, acc.mx) ((st j).util, (st j).max)).1,
          mx := (pairStep (acc.util, acc.mx) ((st j).util, (st j).max)).2,
          busy := acc.busy || decide (C.idle_calls = (st j).saved_idle_calls),
          dl := false,
          sg_cpu_util := if j = p_idx then (st j).util else acc.sg_cpu_util }
        hndrest hst'
        (fun k hk => hbz k (List.mem_cons_of_mem _ hk))
        (fun k hk => hdl k (List.mem_cons_of_mem _ hk)) rfl
      have hel : t ≤ C.stale_ns + (st j).last_update := by omega
      refine ⟨IH.1, IH.2.1.trans ?_, IH.2.2.trans ?_⟩
      · simp [aggPairs, List.filter_cons, hel]
      · simp [aggBusySpec, List.filter_cons, hel, Bool.or_assoc]

/-- Claim C6 is false as stated: in the domain {cpuA, cpuD} (scanned in the
order 0, 1), member 0 has the strictly maximal utilization/capacity ratio
(600/1024 against 100/1024, witnessed by the cross-multiplied comparison)
and no io-wait boost, yet the aggregated pair is (1000, 1024), not member
0's (600, 1024): member 1's boost was applied to the running pair even
though member 1 is not the selected maximum. -/
theorem C6_counterexample :
    (st6 0).util * (st6 1).max > (st6 1).util * (st6 0).max ∧
    (st6 0).iowait_boost = 0 ∧
    (algov_next_freq_shared ctx0 p2 polGate st6 0 0).util = 1000 ∧
    (algov_next_freq_shared ctx0 p2 polGate st6 0 0).util ≠ (st6 0).util := by
  decide

/-- Claim C6 (amended): when no member carries an io-wait boost (each
member's boost is applied to the running pair in scan order, so only with
all boosts zero does pure ratio selection describe the result) and every
member's utilization and capacity are below 2^32 (so the 64-bit
cross-multiplied products do not wrap), the aggregation over the non-stale
members of a DL-free domain selects exactly the cross-multiplied
maximum-ratio pair — the fold of `j_util * max > j_max * util` with the
earlier pair kept on ties — no scanned pair exceeds the selected one, the
selected pair is the initial (0, 1) or one of the members' pairs, and the
busy flag is the logical OR of the non-stale members' busy checks. -/
theorem C6_aggregation_argmax (C : Ctx) (p : Policy) (pol : AlgovPolicy)
    (st : Nat → AlgovCpu) (p_idx : Nat) (t : Int)
    (hnd : p.cpus.Nodup)
    (hboost : ∀ j ∈ p.cpus, (st j).iowait_boost = 0)
    (hdl : ∀ j ∈ p.cpus, (st j).flags.dl = false)
    (hcap : ∀ j ∈ p.cpus, 0 < (st j).max)
    (hbnd : ∀ j ∈ p.cpus, (st j).util < U32 ∧ (st j).max < U32) :
    ((algov_next_freq_shared C p pol st p_idx t).util,
     (algov_next_freq_shared C p pol st p_idx t).mx) =
      aggSel C st t p.cpus ∧
    (algov_next_freq_shared C p pol st p_idx t).busy =
      aggBusySpec C st t p.cpus ∧
    (∀ q ∈ aggPairs C st t p.cpus,
       q.1 * (aggSel C st t p.cpus).2 ≤ q.2 * (aggSel C st t p.cpus).1) ∧
    (aggSel C st t p.cpus = (0, 1) ∨
     aggSel C st t p.cpus ∈ aggPairs C st t p.cpus) := by
  have hpairs_pos : ∀ q ∈ aggPairs C st t p.cpus,
      0 < q.2 ∧ q.1 < U32 ∧ q.2 < U32 := by
    intro q hq
    simp only [aggPairs, List.mem_map, List.mem_filter] at hq
    obtain ⟨j, ⟨hjmem, _⟩, rfl⟩ := hq
    exact ⟨hcap j hjmem, (hbnd j hjmem).1, (hbnd j hjmem).2⟩
  have hloop := agg_loop_pure C p.min t p_idx st p.cpus
    { st := st, util := 0, mx := 1, busy := false, dl := false,
      sg_cpu_util := 0 }
    hnd (fun j _ => rfl) hboost hdl rfl
  have hdom := pairFold_dominates (aggPairs C st t p.cpus) (0, 1)
    (by norm_num) (by norm_num [U32]) (by norm_num [U32]) hpairs_pos
  have hmem := pairFold_mem (aggPairs C st t p.cpus) (0, 1)
  simp only [algov_next_freq_shared, hloop.1, Bool.false_eq_true, if_false]
  refine ⟨hloop.2.1.trans ?_, hloop.2.2.trans ?_, hdom.2, hmem⟩
  · simp [aggSel]
  · simp

/-- Witness for C6's amended theorem on the boost-free domain {cpuA, cpuB}:
the aggregation selects cpuA's pair (600, 1024) — the cross-multiplied
maximum — no member's pair exceeds it, and the busy flag is the OR of the
members' busy checks (false here, both idle counters having advanced). -/
theorem C6_aggregation_argmax_witness :
    ((algov_next_freq_shared ctx0 p2 polGate st0 0 0).util,
     (algov_next_freq_shared ctx0 p2 polGate st0 0 0).mx) =
      aggSel ctx0 st0 0 p2.cpus ∧
    (algov_next_freq_shared ctx0 p2 polGate st0 0 0).busy =
      aggBusySpec ctx0 st0 0 p2.cpus ∧
    (∀ q ∈ aggPairs ctx0 st0 0 p2.cpus,
       q.1 * (aggSel ctx0 st0 0 p2.cpus).2 ≤
         q.2 * (aggSel ctx0 st0 0 p2.cpus).1) ∧
    (aggSel ctx0 st0 0 p2.cpus = (0, 1) ∨
     aggSel ctx0 st0 0 p2.cpus ∈ aggPairs ctx0 st0 0 p2.cpus) :=
  C6_aggregation_argmax ctx0 p2 polGate st0 0 0 (by decide) (by decide)
    (by decide) (by decide) (by decide)
